import Mathlib

/-!
Shallow embedding of the bridge-api hazard-scoring core.

Sources embedded here (JavaScript):
- `routes/routing.js` (the variant in src/unnamed/part_002): `haversineMeters`,
  `pointInPolygon`, `decodePolyline`, `scoreRoute`, and the `/safe-route`
  handler's empty-route guard and sort-based route selection.
- `src/bridge-api/routes/routing.js` lines 90-130 hold textually identical
  copies of `haversineMeters`, `pointInPolygon` and `decodePolyline`.

JavaScript numbers are modelled as follows: route points, clearances,
heights, buffers and durations are real numbers (`ℝ`); raw dataset fields
that may be missing or non-finite after JavaScript `Number(...)` conversion
are modelled by the `JNum` type (NaN / +Infinity / -Infinity / finite).
-/

set_option maxHeartbeats 1000000

set_option maxRecDepth 10000

open scoped Classical

/-- A decoded route point `{lat, lng}` in decimal degrees. -/
structure GeoPoint where
  lat : ℝ
  lng : ℝ

instance : Inhabited GeoPoint := ⟨⟨0, 0⟩⟩

/-- Embedding of `const toRad = d => d * Math.PI / 180` (routing.js). -/
noncomputable def toRad (d : ℝ) : ℝ := d * Real.pi / 180

/-- Embedding of `haversineMeters(a, b)` (part_002 lines 40-49; the copy at
src/bridge-api/routes/routing.js lines 90-101 is identical):
`R = 6371000`, `x = sin(dLat/2)^2 + cos(lat1)*cos(lat2)*sin(dLng/2)^2`,
result `2 * R * asin(sqrt(x))`. -/
noncomputable def haversineMeters (a b : GeoPoint) : ℝ :=
  let R : ℝ := 6371000
  let dLat := toRad (b.lat - a.lat)
  let dLng := toRad (b.lng - a.lng)
  let lat1 := toRad a.lat
  let lat2 := toRad b.lat
  let x := Real.sin (dLat / 2) ^ 2 + Real.cos lat1 * Real.cos lat2 * Real.sin (dLng / 2) ^ 2
  2 * R * Real.arcsin (Real.sqrt x)

lemma haversineMeters_self (a : GeoPoint) : haversineMeters a a = 0 := by
  simp [haversineMeters, toRad]

lemma sin_sq_sub_div (x y : ℝ) :
    Real.sin (toRad (x - y) / 2) ^ 2 = Real.sin (toRad (y - x) / 2) ^ 2 := by
  have h : toRad (x - y) / 2 = -(toRad (y - x) / 2) := by
    simp [toRad]; ring
  rw [h, Real.sin_neg]
  ring

lemma haversineMeters_comm (a b : GeoPoint) :
    haversineMeters a b = haversineMeters b a := by
  simp only [haversineMeters]
  rw [sin_sq_sub_div b.lat a.lat, sin_sq_sub_div b.lng a.lng,
    mul_comm (Real.cos (toRad a.lat)) (Real.cos (toRad b.lat))]

/-- Embedding of the ray-casting `pointInPolygon(point, polygon)`
(part_002 lines 52-61; identical copy at src/bridge-api/routes/routing.js
lines 104-115).  The JS loop runs `i` from `0` with `j` the previous index
(initially `polygon.length - 1`); `x = point.lat`, `y = point.lng`.
The division `(yj - yi)` is only reached when the straddle test holds
(JS `&&` short-circuits), in which case `yj ≠ yi`; Lean's total division
agrees there.  This model computes with exact reals; the arithmetic of the
program itself is IEEE binary64, whose rounding is modelled separately by
`pointInPolygonD` below — the two can differ on knife-edge inputs (see the
C8 counterexample), which is why no claim below relies on the exact-real
value of this function at any particular point. -/
noncomputable def pointInPolygon (point : GeoPoint) (polygon : List GeoPoint) : Bool :=
  (List.range polygon.length).foldl
    (fun inside i =>
      let j := if i = 0 then polygon.length - 1 else i - 1
      let vi := polygon.getD i default
      let vj := polygon.getD j default
      if ((vi.lng > point.lng) ≠ (vj.lng > point.lng)) ∧
          (point.lat < (vj.lat - vi.lat) * (point.lng - vi.lng) / (vj.lng - vi.lng) + vi.lat)
      then !inside else inside)
    false

lemma pointInPolygon_nil (pt : GeoPoint) : pointInPolygon pt [] = false := by
  simp [pointInPolygon]

lemma pointInPolygon_singleton (pt q : GeoPoint) : pointInPolygon pt [q] = false := by
  have h1 : List.range 1 = [0] := rfl
  simp [pointInPolygon, h1]

/-!
The value of a raw JSON dataset field after JavaScript `Number(...)`
conversion: NaN (which is also what a missing field converts to, since
`Number(undefined) = NaN`), positive or negative infinity, or a finite
number.
-/

/-- A JavaScript number that may be NaN or infinite. -/
inductive JNum where
  | nan : JNum
  | inf : JNum
  | ninf : JNum
  | fin : ℝ → JNum

/-- JS `v >= 0`: false for NaN and `-Infinity`, true for `Infinity`. -/
def JNum.ge0 : JNum → Prop
  | .fin x => 0 ≤ x
  | .inf => True
  | _ => False

/-- JS `v >= t` against a finite number `t`: false for NaN and
`-Infinity`, true for `Infinity`. -/
def JNum.geR (t : ℝ) : JNum → Prop
  | .fin x => t ≤ x
  | .inf => True
  | _ => False

/-- JS truthiness of a number: `0` and NaN are falsy, everything else
(including the infinities) is truthy. -/
def JNum.truthy : JNum → Prop
  | .fin x => x ≠ 0
  | .nan => False
  | _ => True

/-- The finite value carried by a `JNum` (the non-finite cases are junk and
are only ever read for records that passed the scorer's guards, which force
finiteness). -/
def JNum.toReal : JNum → ℝ
  | .fin x => x
  | _ => 0

/-- Holds exactly when the field is missing (NaN after conversion) or
non-finite. -/
def JNum.nonFinite : JNum → Prop
  | .fin _ => False
  | _ => True

/-- A raw bridge record from `data/low_clearance_bridges.json`.  The
numeric fields model `Number(b.clearance_ft)`, `Number(b.latitude)` and
`Number(b.longitude)`; the string fields model `b.id` and `b.structure_id`
with `""` standing for any falsy value. -/
structure Bridge where
  id : String
  structure_id : String
  latitude : JNum
  longitude : JNum
  clearance_ft : JNum

/-- The record pushed onto `hazards.lowBridges` (part_002 lines 127-130).
The JS fallback id `` `${bp.lat},${bp.lng}` `` is kept as the coordinate
pair (the string rendering is irrelevant: only record identity matters). -/
structure FlaggedBridge where
  id : String ⊕ (ℝ × ℝ)
  latitude : ℝ
  longitude : ℝ
  clearance_ft : ℝ

/-- A raw zone record; `polygon = none` models a non-array `z.polygon`
(the source replaces it by `[]` via `Array.isArray(z.polygon) ? z.polygon : []`). -/
structure Zone where
  id : String
  name : String
  polygon : Option (List GeoPoint)

/-- The record pushed onto a zone hazard bucket:
`{ id: z.id || z.name, name: z.name || key }` (part_002 line 143). -/
structure FlaggedZone where
  id : String
  name : String
deriving DecidableEq

/-- The options read by `scoreRoute` (part_002 lines 102-105):
`truckHeightFt` (default 13.5 applied by the caller) and
`bridgeBufferMeters` (default 120). -/
structure ScoreOpts where
  truckHeightFt : ℝ
  bridgeBufferMeters : ℝ

/-- Source constant `const SAFE_EXTRA_FT = 0.5; // safety margin` (part_002 line 107). -/
def SAFE_EXTRA_FT : ℝ := 0.5

/-- Embedding of `haversineMeters(bp, p) <= bridgeBufferMeters` (part_002 line 126).
If either converted coordinate of the bridge is NaN or infinite, the JS
distance is NaN (`Math.sin`/`Math.cos` of a non-finite argument is NaN and
NaN propagates through `*`, `+`, `Math.sqrt` and `Math.asin`), and a NaN
comparison is false. -/
noncomputable def nearBridge (buf : ℝ) (b : Bridge) (p : GeoPoint) : Prop :=
  match b.latitude, b.longitude with
  | .fin la, .fin ln => haversineMeters ⟨la, ln⟩ p ≤ buf
  | _, _ => False

/-- The condition under which the bridge loop (part_002 lines 117-133)
reaches the `push`: none of the three `continue` guards fires —
`!(clr >= 0)`, `clr >= thresholdFt` with
`thresholdFt = truckHeightFt + SAFE_EXTRA_FT`, and `!(bp.lat && bp.lng)` —
and some route point is within the buffer. -/
noncomputable def bridgeFlagged (points : List GeoPoint) (o : ScoreOpts) (b : Bridge) : Prop :=
  b.clearance_ft.ge0 ∧
  ¬ b.clearance_ft.geR (o.truckHeightFt + SAFE_EXTRA_FT) ∧
  b.latitude.truthy ∧ b.longitude.truthy ∧
  ∃ p ∈ points, nearBridge o.bridgeBufferMeters b p

/-- The record pushed for a flagged bridge:
`id: b.id || b.structure_id || coordinate string`, converted coordinates
and clearance. -/
def flagRecord (b : Bridge) : FlaggedBridge :=
  ⟨if b.id ≠ "" then .inl b.id
    else if b.structure_id ≠ "" then .inl b.structure_id
    else .inr (b.latitude.toReal, b.longitude.toReal),
   b.latitude.toReal, b.longitude.toReal, b.clearance_ft.toReal⟩

/-- The `hazards.lowBridges` list produced by the bridge loop: each dataset bridge is
tested once and pushed at most once (the inner loop over route points
`break`s at the first match, so the loop is a pure presence test). -/
noncomputable def lowBridgesOf (bridges : List Bridge) (points : List GeoPoint)
    (o : ScoreOpts) : List FlaggedBridge :=
  (bridges.filter fun b => bridgeFlagged points o b).map flagRecord

/-- Embedding of `const poly = Array.isArray(z.polygon) ? z.polygon : []` (part_002 line 139). -/
def polyOf (z : Zone) : List GeoPoint := z.polygon.getD []

/-- The condition under which `checkZones` (part_002 lines 137-148) pushes
zone `z`: the polygon is a non-empty array (`if (!poly.length) continue`)
and some route point lies inside it (inner loop `break`s at the first
match). -/
noncomputable def zoneFlagged (points : List GeoPoint) (z : Zone) : Prop :=
  polyOf z ≠ [] ∧ ∃ p ∈ points, pointInPolygon p (polyOf z) = true

/-- The record pushed for a flagged zone:
`{ id: z.id || z.name, name: z.name || key }`. -/
def zoneRecord (key : String) (z : Zone) : FlaggedZone :=
  ⟨if z.id ≠ "" then z.id else z.name,
   if z.name ≠ "" then z.name else key⟩

/-- One `checkZones(zones, key)` bucket. -/
noncomputable def flaggedZonesOf (zones : List Zone) (points : List GeoPoint)
    (key : String) : List FlaggedZone :=
  (zones.filter fun z => zoneFlagged points z).map (zoneRecord key)

/-- The `hazards` record built by `scoreRoute`. -/
structure Hazards where
  lowBridges : List FlaggedBridge
  noTruckZones : List FlaggedZone
  residentialZones : List FlaggedZone

/-- The value returned by `scoreRoute`: `{ hazards, score }`. -/
structure ScoreResult where
  hazards : Hazards
  score : ℝ

/-- Embedding of `scoreRoute(points, opts)` (part_002 lines 101-158).  The
module-level datasets `bridges`, `noTruckZones`, `residentialZones` are
passed explicitly.  `score = lowBridges.length * 10 + noTruckZones.length * 5
+ residentialZones.length * 3` (lines 153-155). -/
noncomputable def scoreRoute (bridges : List Bridge) (noTruckZones residentialZones : List Zone)
    (points : List GeoPoint) (o : ScoreOpts) : ScoreResult :=
  let lb := lowBridgesOf bridges points o
  let nt := flaggedZonesOf noTruckZones points "noTruckZones"
  let rz := flaggedZonesOf residentialZones points "residentialZones"
  ⟨⟨lb, nt, rz⟩, (lb.length : ℝ) * 10 + (nt.length : ℝ) * 5 + (rz.length : ℝ) * 3⟩

lemma bridgeFlagged_append_self (pts : List GeoPoint) (o : ScoreOpts) (b : Bridge) :
    bridgeFlagged (pts ++ pts) o b ↔ bridgeFlagged pts o b := by
  simp [bridgeFlagged, List.mem_append, or_self]

lemma zoneFlagged_append_self (pts : List GeoPoint) (z : Zone) :
    zoneFlagged (pts ++ pts) z ↔ zoneFlagged pts z := by
  simp [zoneFlagged, List.mem_append, or_self]

lemma not_bridgeFlagged_of_nonFinite (pts : List GeoPoint) (o : ScoreOpts) (b : Bridge)
    (h : b.clearance_ft.nonFinite ∨ b.latitude.nonFinite ∨ b.longitude.nonFinite) :
    ¬ bridgeFlagged pts o b := by
  rintro ⟨hge, hnlt, hlat, hlng, p, hp, hnear⟩
  rcases h with h | h | h
  · rcases hc : b.clearance_ft with _ | _ | _ | x
    · rw [hc] at hge; exact hge
    · rw [hc] at hnlt; exact hnlt trivial
    · rw [hc] at hge; exact hge
    · rw [hc] at h; exact h
  · rcases hc : b.latitude with _ | _ | _ | x
    · rw [hc] at hlat; exact hlat
    · simp [nearBridge, hc] at hnear
    · simp [nearBridge, hc] at hnear
    · rw [hc] at h; exact h
  · rcases hc : b.longitude with _ | _ | _ | x
    · rw [hc] at hlng; exact hlng
    · simp [nearBridge, hc] at hnear
    · simp [nearBridge, hc] at hnear
    · rw [hc] at h; exact h

/-- C3: the score returned by `scoreRoute` is
`10 * |lowBridges| + 5 * |noTruckZones| + 3 * |residentialZones|`,
a non-negative integer (part_002 lines 153-157). -/
theorem scoreRoute_score_formula (bridges : List Bridge) (nt rz : List Zone)
    (pts : List GeoPoint) (o : ScoreOpts) :
    (scoreRoute bridges nt rz pts o).score =
      10 * ((scoreRoute bridges nt rz pts o).hazards.lowBridges.length : ℝ) +
      5 * ((scoreRoute bridges nt rz pts o).hazards.noTruckZones.length : ℝ) +
      3 * ((scoreRoute bridges nt rz pts o).hazards.residentialZones.length : ℝ) ∧
    ∃ n : ℕ, (scoreRoute bridges nt rz pts o).score = (n : ℝ) := by
  refine ⟨by simp [scoreRoute]; ring, ?_⟩
  refine ⟨(lowBridgesOf bridges pts o).length * 10 +
    (flaggedZonesOf nt pts "noTruckZones").length * 5 +
    (flaggedZonesOf rz pts "residentialZones").length * 3, ?_⟩
  simp [scoreRoute]

/-- C4: scoring is hazard-count-idempotent — duplicating the route's point
list changes neither the hazard lists nor the score, because each dataset
entry is flagged through a pure existence test over the route points. -/
theorem scoreRoute_duplicate_points (bridges : List Bridge) (nt rz : List Zone)
    (pts : List GeoPoint) (o : ScoreOpts) :
    scoreRoute bridges nt rz (pts ++ pts) o = scoreRoute bridges nt rz pts o := by
  have hb : (bridges.filter fun b => bridgeFlagged (pts ++ pts) o b) =
      bridges.filter fun b => bridgeFlagged pts o b :=
    List.filter_congr fun b _ => decide_eq_decide.mpr (bridgeFlagged_append_self pts o b)
  have hz : ∀ zones : List Zone, (zones.filter fun z => zoneFlagged (pts ++ pts) z) =
      zones.filter fun z => zoneFlagged pts z := fun zones =>
    List.filter_congr fun z _ => decide_eq_decide.mpr (zoneFlagged_append_self pts z)
  simp [scoreRoute, lowBridgesOf, flaggedZonesOf, hb, hz]

/-- C6: an empty route yields a report with no hazards and score 0, and
empty (or absent, hence loaded as `[]`) zone datasets yield empty zone
hazard buckets for every route; `scoreRoute` is a total function, so
neither case can error. -/
theorem scoreRoute_empty_cases (bridges : List Bridge) (nt rz : List Zone)
    (pts : List GeoPoint) (o : ScoreOpts) :
    scoreRoute bridges nt rz [] o = ⟨⟨[], [], []⟩, 0⟩ ∧
    (scoreRoute bridges [] [] pts o).hazards.noTruckZones = [] ∧
    (scoreRoute bridges [] [] pts o).hazards.residentialZones = [] := by
  refine ⟨?_, by simp [scoreRoute, flaggedZonesOf], by simp [scoreRoute, flaggedZonesOf]⟩
  have hb : (bridges.filter fun b => bridgeFlagged [] o b) = [] := by
    simp [List.filter_eq_nil_iff, bridgeFlagged]
  have hz : ∀ zones : List Zone, (zones.filter fun z => zoneFlagged [] z) = [] := by
    intro zones
    simp [List.filter_eq_nil_iff, zoneFlagged]
  simp [scoreRoute, lowBridgesOf, flaggedZonesOf, hb, hz]

/-- C7: a bridge record whose converted clearance or coordinates are
missing (NaN) or non-finite is silently skipped: removing it from the
dataset changes nothing, so it never reaches `lowBridges`, contributes 0 to
the score, and (the embedding being a total function) causes no error.
NaN/`-Infinity` clearances fail `clr >= 0`; an `Infinity` clearance fails
`clr < thresholdFt`; NaN coordinates are falsy; infinite coordinates pass
the truthiness guard but give a NaN haversine distance, and `NaN <= buffer`
is false. -/
theorem scoreRoute_skips_malformed_bridge (bs₁ bs₂ : List Bridge) (b : Bridge)
    (nt rz : List Zone) (pts : List GeoPoint) (o : ScoreOpts)
    (h : b.clearance_ft.nonFinite ∨ b.latitude.nonFinite ∨ b.longitude.nonFinite) :
    scoreRoute (bs₁ ++ b :: bs₂) nt rz pts o = scoreRoute (bs₁ ++ bs₂) nt rz pts o := by
  have hnot := not_bridgeFlagged_of_nonFinite pts o b h
  simp [scoreRoute, lowBridgesOf, List.filter_append, List.filter_cons, hnot]

/-- C7 witness: a bridge with a missing (NaN) clearance is skipped in a
concrete configuration. -/
theorem scoreRoute_skips_malformed_bridge_witness :
    ((⟨"m", "", .fin 1, .fin 1, .nan⟩ : Bridge).clearance_ft.nonFinite ∨
      (⟨"m", "", .fin 1, .fin 1, .nan⟩ : Bridge).latitude.nonFinite ∨
      (⟨"m", "", .fin 1, .fin 1, .nan⟩ : Bridge).longitude.nonFinite) ∧
    scoreRoute ([] ++ ⟨"m", "", .fin 1, .fin 1, .nan⟩ :: []) [] [] [⟨1, 1⟩] ⟨13.5, 120⟩ =
      scoreRoute ([] ++ []) [] [] [⟨1, 1⟩] ⟨13.5, 120⟩ :=
  ⟨Or.inl trivial,
   scoreRoute_skips_malformed_bridge [] [] _ [] [] [⟨1, 1⟩] ⟨13.5, 120⟩ (Or.inl trivial)⟩

/-- C9: for GeoPoints within the valid latitude/longitude ranges,
`haversineMeters` is symmetric and vanishes on equal points. -/
theorem haversineMeters_symm_and_self (a b : GeoPoint)
    (_ha1 : -90 ≤ a.lat) (_ha2 : a.lat ≤ 90) (_ha3 : -180 ≤ a.lng) (_ha4 : a.lng ≤ 180)
    (_hb1 : -90 ≤ b.lat) (_hb2 : b.lat ≤ 90) (_hb3 : -180 ≤ b.lng) (_hb4 : b.lng ≤ 180) :
    haversineMeters a b = haversineMeters b a ∧ haversineMeters a a = 0 :=
  ⟨haversineMeters_comm a b, haversineMeters_self a⟩

/-- C9 witness at (0,0) and (45,90). -/
theorem haversineMeters_symm_and_self_witness :
    ((-90 : ℝ) ≤ (⟨0, 0⟩ : GeoPoint).lat ∧ (⟨0, 0⟩ : GeoPoint).lat ≤ 90 ∧
      (-180 : ℝ) ≤ (⟨0, 0⟩ : GeoPoint).lng ∧ (⟨0, 0⟩ : GeoPoint).lng ≤ 180 ∧
      (-90 : ℝ) ≤ (⟨45, 90⟩ : GeoPoint).lat ∧ (⟨45, 90⟩ : GeoPoint).lat ≤ 90 ∧
      (-180 : ℝ) ≤ (⟨45, 90⟩ : GeoPoint).lng ∧ (⟨45, 90⟩ : GeoPoint).lng ≤ 180) ∧
    (haversineMeters ⟨0, 0⟩ ⟨45, 90⟩ = haversineMeters ⟨45, 90⟩ ⟨0, 0⟩ ∧
      haversineMeters ⟨0, 0⟩ ⟨0, 0⟩ = 0) :=
  ⟨by norm_num,
   haversineMeters_symm_and_self ⟨0, 0⟩ ⟨45, 90⟩ (by norm_num) (by norm_num) (by norm_num)
     (by norm_num) (by norm_num) (by norm_num) (by norm_num) (by norm_num)⟩

/-- C1 counterexample: the claim requires
`requiredClearanceFt = max(13.0, truck.height_ft + safety margin)`, so with
truck height 10 ft a 12-ft bridge sitting exactly on a route point (distance
0 ≤ buffer) ought to be flagged (`12 < max 13 10.5`); part_002's scorer uses
`thresholdFt = truckHeightFt + SAFE_EXTRA_FT` with no 13.0-ft floor, so
`lowBridges` stays empty. -/
theorem bridgeFlag_claim_fails_at_ten_ft :
    (12 : ℝ) < max 13 (10 + SAFE_EXTRA_FT) ∧
    (∃ p ∈ [(⟨1, 1⟩ : GeoPoint)],
      nearBridge 120 ⟨"b1", "", .fin 1, .fin 1, .fin 12⟩ p) ∧
    (scoreRoute [⟨"b1", "", .fin 1, .fin 1, .fin 12⟩] [] [] [⟨1, 1⟩]
      ⟨10, 120⟩).hazards.lowBridges = [] := by
  refine ⟨by norm_num [SAFE_EXTRA_FT], ⟨⟨1, 1⟩, by simp, ?_⟩, ?_⟩
  · show haversineMeters ⟨1, 1⟩ ⟨1, 1⟩ ≤ 120
    rw [haversineMeters_self]
    norm_num
  · have hnot : ¬ bridgeFlagged [⟨1, 1⟩] ⟨10, 120⟩ ⟨"b1", "", .fin 1, .fin 1, .fin 12⟩ := by
      rintro ⟨-, hn, -⟩
      exact hn (by norm_num [JNum.geR, SAFE_EXTRA_FT])
    simp [scoreRoute, lowBridgesOf, List.filter_cons, hnot]

/-- C1 (amended): for a bridge whose converted clearance and coordinates
are finite with both coordinates nonzero (truthy), part_002's scorer flags
it iff `0 ≤ clearance_ft < truck.height_ft + SAFE_EXTRA_FT` (a fixed 0.5-ft
margin, with no 13.0-ft regulatory floor and no `tuning.safetyMarginFt`)
and the bridge is within `bridgeBufferMeters` of at least one route point;
each dataset bridge is pushed at most once, so `lowBridges` is never longer
than the dataset. -/
theorem bridgeFlagged_characterisation (bridges : List Bridge) (pts : List GeoPoint)
    (o : ScoreOpts) (b : Bridge) (la ln c : ℝ)
    (hla : b.latitude = JNum.fin la) (hln : b.longitude = JNum.fin ln)
    (hc : b.clearance_ft = JNum.fin c) (h0a : la ≠ 0) (h0n : ln ≠ 0) :
    (bridgeFlagged pts o b ↔
      0 ≤ c ∧ c < o.truckHeightFt + SAFE_EXTRA_FT ∧
      ∃ p ∈ pts, haversineMeters ⟨la, ln⟩ p ≤ o.bridgeBufferMeters) ∧
    (lowBridgesOf bridges pts o).length ≤ bridges.length := by
  constructor
  · simp [bridgeFlagged, JNum.ge0, JNum.geR, JNum.truthy, nearBridge, hla, hln, hc,
      h0a, h0n, not_le]
  · calc (lowBridgesOf bridges pts o).length
        = (bridges.filter fun b => bridgeFlagged pts o b).length := by
          simp [lowBridgesOf]
      _ ≤ bridges.length := List.length_filter_le _ _

/-- C1 (amended) witness: a 12-ft bridge at a route point with a 13.5-ft
truck is flagged exactly per the amended characterisation. -/
theorem bridgeFlagged_characterisation_witness :
    ((⟨"b1", "", .fin 1, .fin 1, .fin 12⟩ : Bridge).latitude = JNum.fin 1 ∧
      (⟨"b1", "", .fin 1, .fin 1, .fin 12⟩ : Bridge).longitude = JNum.fin 1 ∧
      (⟨"b1", "", .fin 1, .fin 1, .fin 12⟩ : Bridge).clearance_ft = JNum.fin 12 ∧
      (1 : ℝ) ≠ 0) ∧
    ((bridgeFlagged [⟨1, 1⟩] ⟨13.5, 120⟩ ⟨"b1", "", .fin 1, .fin 1, .fin 12⟩ ↔
      (0 : ℝ) ≤ 12 ∧ (12 : ℝ) < (⟨13.5, 120⟩ : ScoreOpts).truckHeightFt + SAFE_EXTRA_FT ∧
      ∃ p ∈ [(⟨1, 1⟩ : GeoPoint)],
        haversineMeters ⟨1, 1⟩ p ≤ (⟨13.5, 120⟩ : ScoreOpts).bridgeBufferMeters) ∧
    (lowBridgesOf [⟨"b1", "", .fin 1, .fin 1, .fin 12⟩] [⟨1, 1⟩] ⟨13.5, 120⟩).length ≤
      ([⟨"b1", "", .fin 1, .fin 1, .fin 12⟩] : List Bridge).length) :=
  ⟨⟨rfl, rfl, rfl, by norm_num⟩,
   bridgeFlagged_characterisation [⟨"b1", "", .fin 1, .fin 1, .fin 12⟩] [⟨1, 1⟩]
     ⟨13.5, 120⟩ _ 1 1 12 rfl rfl rfl (by norm_num) (by norm_num)⟩

/-!
Route selection (`/safe-route` handler, part_002 lines 187-223).  Each
evaluated candidate carries the fields the selector reads: its input
`index`, its `score` from `scoreRoute`, and the provider-reported
`duration_s` (`null` modelled as `none`); the other payload fields
(`encoded`, `summary`, `distance_m`, `hazards`) are passed through
opaquely and do not affect selection.
-/

/-- One entry of the `evaluated` array, restricted to the selection-relevant
fields. -/
structure EvaluatedRoute where
  index : ℕ
  score : ℝ
  duration_s : Option ℝ

/-- The duration key `r.duration_s ?? 9e15` — a missing duration becomes the sentinel. -/
noncomputable def durKey (r : EvaluatedRoute) : ℝ := r.duration_s.getD 9e15

/-- The JS sort comparator
`(a, b) => (a.score - b.score) || ((a.duration_s ?? 9e15) - (b.duration_s ?? 9e15))`
(part_002 line 223): `x || y` evaluates to `x` unless `x` is `0` (falsy). -/
noncomputable def routeCmp (a b : EvaluatedRoute) : ℝ :=
  if a.score - b.score ≠ 0 then a.score - b.score else durKey a - durKey b

/-- Whether `a` strictly precedes `b` under the comparator (negative comparator
value). -/
noncomputable def routeLt (a b : EvaluatedRoute) : Prop := routeCmp a b < 0

/-- One step of extracting the first element of the stable sort: keep the
running best unless the later element strictly precedes it.
`Array.prototype.sort` is stable (ECMA-262), so `sort(cmp)[0]` is the
earliest element that no other element strictly precedes. -/
noncomputable def pickJS (acc x : EvaluatedRoute) : EvaluatedRoute :=
  if routeLt x acc then x else acc

/-- Embedding of `evaluated.slice().sort(cmp)[0]` on the non-empty list `r :: rest`. -/
noncomputable def selectFrom (r : EvaluatedRoute) (rest : List EvaluatedRoute) : EvaluatedRoute :=
  rest.foldl pickJS r

/-- The hard failure for zero candidate routes (part_002 lines 187-190:
`if (!routes.length) return res.status(502).json({ error: 'No routes
returned from Google Directions', ... })`) — the spec's `EmptyInputError`. -/
inductive RouteError where
  | emptyInput : RouteError
deriving DecidableEq

/-- The selection step of the `/safe-route` handler: fail on an empty
candidate list, otherwise return the first element of the sorted copy of
`evaluated` (`evaluated` is `routes.map(...)`, so it is empty exactly when
`routes` is). -/
noncomputable def safeRoute (routes : List EvaluatedRoute) : Except RouteError EvaluatedRoute :=
  match routes with
  | [] => .error .emptyInput
  | r :: rest => .ok (selectFrom r rest)

/-- The lexicographic order on `(score, durKey)` that the comparator
implements. -/
noncomputable def keyLt (a b : EvaluatedRoute) : Prop :=
  a.score < b.score ∨ (a.score = b.score ∧ durKey a < durKey b)

lemma routeLt_iff_keyLt (a b : EvaluatedRoute) : routeLt a b ↔ keyLt a b := by
  unfold routeLt routeCmp keyLt
  by_cases h : a.score - b.score ≠ 0
  · rw [if_pos h]
    constructor
    · intro hlt
      exact Or.inl (by linarith)
    · rintro (hlt | ⟨heq, _⟩)
      · linarith
      · exact absurd (by linarith : a.score - b.score = 0) h
  · rw [if_neg h]
    push_neg at h
    constructor
    · intro hd
      exact Or.inr ⟨by linarith, by linarith⟩
    · rintro (hlt | ⟨heq, hd⟩)
      · linarith
      · linarith

lemma keyLt_irrefl (a : EvaluatedRoute) : ¬ keyLt a a := by
  rintro (h | ⟨-, h⟩) <;> exact lt_irrefl _ h

lemma keyLt_trans {a b c : EvaluatedRoute} (h1 : keyLt a b) (h2 : keyLt b c) : keyLt a c := by
  rcases h1 with h | ⟨e, h⟩ <;> rcases h2 with h' | ⟨e', h'⟩
  · exact Or.inl (lt_trans h h')
  · exact Or.inl (e' ▸ h)
  · exact Or.inl (e ▸ h')
  · exact Or.inr ⟨e.trans e', lt_trans h h'⟩

lemma keyLt_asymm {a b : EvaluatedRoute} (h : keyLt a b) : ¬ keyLt b a :=
  fun h' => keyLt_irrefl a (keyLt_trans h h')

lemma keyLt_cross {c a x : EvaluatedRoute} (hca : keyLt c a) (hxa : ¬ keyLt x a) :
    keyLt c x := by
  unfold keyLt at *
  push_neg at hxa
  obtain ⟨h1, h2⟩ := hxa
  rcases hca with h | ⟨e, h⟩
  · exact Or.inl (lt_of_lt_of_le h h1)
  · rcases lt_or_eq_of_le h1 with h1' | h1'
    · exact Or.inl (e ▸ h1')
    · exact Or.inr ⟨e.trans h1', lt_of_lt_of_le h (h2 h1'.symm)⟩

lemma foldl_pick_spec (l : List EvaluatedRoute) (a : EvaluatedRoute) :
    (l.foldl pickJS a = a ∧ ∀ s ∈ l, ¬ keyLt s a) ∨
    (∃ (i : ℕ) (hi : i < l.length), l.foldl pickJS a = l.get ⟨i, hi⟩ ∧
      keyLt (l.foldl pickJS a) a ∧ (∀ s ∈ l, ¬ keyLt s (l.foldl pickJS a)) ∧
      (∀ (j : ℕ) (hj : j < l.length), j < i →
        keyLt (l.foldl pickJS a) (l.get ⟨j, hj⟩))) := by
  induction l generalizing a with
  | nil => exact Or.inl ⟨rfl, by simp⟩
  | cons x t ih =>
    have hstep : (x :: t).foldl pickJS a = t.foldl pickJS (pickJS a x) := by
      simp [List.foldl_cons]
    by_cases hxa : routeLt x a
    · have hxaK : keyLt x a := (routeLt_iff_keyLt x a).mp hxa
      have hfold : (x :: t).foldl pickJS a = t.foldl pickJS x := by
        rw [hstep, pickJS, if_pos hxa]
      rcases ih x with ⟨hceq, hmin⟩ | ⟨i', hi', hceq, hlt, hmin, hfirst⟩
      · refine Or.inr ⟨0, by simp, ?_, ?_, ?_, ?_⟩
        · rw [hfold, hceq]
          simp
        · rw [hfold, hceq]
          exact hxaK
        · rw [hfold, hceq]
          intro s hs
          rcases List.mem_cons.mp hs with rfl | hs
          · exact keyLt_irrefl s
          · exact hmin s hs
        · intro j hj hj0
          omega
      · refine Or.inr ⟨i' + 1, by simp; omega, ?_, ?_, ?_, ?_⟩
        · rw [hfold, hceq]
          simp
        · rw [hfold]
          exact keyLt_trans hlt hxaK
        · rw [hfold]
          intro s hs
          rcases List.mem_cons.mp hs with rfl | hs
          · exact keyLt_asymm hlt
          · exact hmin s hs
        · intro j hj hjlt
          rw [hfold]
          rcases j with _ | j'
          · simpa using hlt
          · have hj' : j' < t.length := by simp at hj; omega
            have := hfirst j' hj' (by omega)
            simpa using this
    · have hxaK : ¬ keyLt x a := fun h => hxa ((routeLt_iff_keyLt x a).mpr h)
      have hfold : (x :: t).foldl pickJS a = t.foldl pickJS a := by
        rw [hstep, pickJS, if_neg hxa]
      rcases ih a with ⟨hceq, hmin⟩ | ⟨i', hi', hceq, hlt, hmin, hfirst⟩
      · refine Or.inl ⟨by rw [hfold, hceq], ?_⟩
        intro s hs
        rcases List.mem_cons.mp hs with rfl | hs
        · exact hxaK
        · exact hmin s hs
      · refine Or.inr ⟨i' + 1, by simp; omega, ?_, ?_, ?_, ?_⟩
        · rw [hfold, hceq]
          simp
        · rw [hfold]
          exact hlt
        · rw [hfold]
          intro s hs
          rcases List.mem_cons.mp hs with rfl | hs
          · exact fun hxc => hxaK (keyLt_trans hxc hlt)
          · exact hmin s hs
        · intro j hj hjlt
          rw [hfold]
          rcases j with _ | j'
          · simpa using keyLt_cross hlt hxaK
          · have hj' : j' < t.length := by simp at hj; omega
            have := hfirst j' hj' (by omega)
            simpa using this

lemma selectFrom_spec (r : EvaluatedRoute) (rest : List EvaluatedRoute) :
    ∃ (i : ℕ) (hi : i < (r :: rest).length),
      selectFrom r rest = (r :: rest).get ⟨i, hi⟩ ∧
      (∀ s ∈ r :: rest, ¬ keyLt s (selectFrom r rest)) ∧
      (∀ (j : ℕ) (hj : j < (r :: rest).length), j < i →
        keyLt (selectFrom r rest) ((r :: rest).get ⟨j, hj⟩)) := by
  have hsel : selectFrom r rest = rest.foldl pickJS r := rfl
  rcases foldl_pick_spec rest r with ⟨hceq, hmin⟩ | ⟨i', hi', hceq, hlt, hmin, hfirst⟩
  · refine ⟨0, by simp, by simp [hsel, hceq], ?_, ?_⟩
    · intro s hs
      rw [hsel, hceq]
      rcases List.mem_cons.mp hs with rfl | hs
      · exact keyLt_irrefl s
      · exact hmin s hs
    · intro j hj hj0
      omega
  · refine ⟨i' + 1, by simp; omega, ?_, ?_, ?_⟩
    · rw [hsel, hceq]
      simp
    · intro s hs
      rw [hsel]
      rcases List.mem_cons.mp hs with rfl | hs
      · exact keyLt_asymm hlt
      · exact hmin s hs
    · intro j hj hjlt
      rw [hsel]
      rcases j with _ | j'
      · simpa using hlt
      · have hj' : j' < rest.length := by simp at hj; omega
        have := hfirst j' hj' (by omega)
        simpa using this

/-- The claim's duration tie-break, following the spec's words: shorter
present duration first, a missing duration sorts last (after every present
duration). -/
def durLtSpec : Option ℝ → Option ℝ → Prop
  | some x, some y => x < y
  | some _, none => True
  | none, _ => False

/-- The claim's preference order, following the spec's words: lower score
first (so a zero-score route beats every positive-score one), ties broken
by `durLtSpec`. -/
noncomputable def prefLtSpec (a b : EvaluatedRoute) : Prop :=
  a.score < b.score ∨ (a.score = b.score ∧ durLtSpec a.duration_s b.duration_s)

lemma keyLt_iff_prefLtSpec (a b : EvaluatedRoute)
    (ha : ∀ d : ℝ, a.duration_s = some d → d < 9e15)
    (hb : ∀ d : ℝ, b.duration_s = some d → d < 9e15) :
    keyLt a b ↔ prefLtSpec a b := by
  unfold keyLt prefLtSpec durKey
  rcases hda : a.duration_s with _ | x <;> rcases hdb : b.duration_s with _ | y <;>
    simp only [Option.getD_some, Option.getD_none, durLtSpec, and_false, or_false,
      and_true]
  · simp
  · have hy := hb y hdb
    constructor
    · rintro (h | ⟨e, h⟩)
      · exact h
      · linarith
    · exact fun h => Or.inl h
  · have hx := ha x hda
    constructor
    · rintro (h | ⟨e, h⟩)
      · exact Or.inl h
      · exact Or.inr e
    · rintro (h | e)
      · exact Or.inl h
      · exact Or.inr ⟨e, by linarith⟩

/-- C5: with zero candidate routes the handler fails with the
`EmptyInputError` (the 502 "No routes returned" response); since the result
is `Except.error`, no chosen route is ever returned for the empty input. -/
theorem safeRoute_empty_input :
    safeRoute [] = Except.error RouteError.emptyInput := rfl

/-- C2 counterexample: the claim says a missing duration sorts last among
zero-score ties, but the code compares through the sentinel `9e15`: with
routes `[{index 0, score 0, duration 1e16}, {index 1, score 0, duration
missing}]` the code picks index 1 (the missing duration, since
`9e15 < 1e16`), although the claim's order strictly prefers index 0. -/
theorem safeRoute_claim_fails_on_sentinel :
    safeRoute [⟨0, 0, some 1e16⟩, ⟨1, 0, none⟩] = Except.ok ⟨1, 0, none⟩ ∧
    prefLtSpec ⟨0, 0, some 1e16⟩ ⟨1, 0, none⟩ := by
  constructor
  · have hlt : routeLt ⟨1, 0, none⟩ ⟨0, 0, some 1e16⟩ := by
      unfold routeLt routeCmp durKey
      norm_num
    simp [safeRoute, selectFrom, pickJS, hlt]
  · exact Or.inr ⟨rfl, trivial⟩

/-- C2 (amended): for every non-empty list of scored candidates whose
present durations are all below the sentinel `9e15` seconds, the selector
returns the first-encountered route that is minimal in the preference order
"lower score first, then shorter duration with missing-durations last":
it returns a list element; if scores are non-negative and some route scores
0 the chosen route scores 0; no route strictly precedes the chosen one; and
every route at an earlier index is strictly preceded by the chosen one (so
selection is deterministic and reproducible for identical inputs). -/
theorem safeRoute_selection_spec (l : List EvaluatedRoute) (hne : l ≠ [])
    (hdur : ∀ r ∈ l, ∀ d : ℝ, r.duration_s = some d → d < 9e15) :
    ∃ (i : ℕ) (hi : i < l.length) (chosen : EvaluatedRoute),
      safeRoute l = Except.ok chosen ∧ chosen = l.get ⟨i, hi⟩ ∧
      ((∀ r ∈ l, 0 ≤ r.score) → (∃ r ∈ l, r.score = 0) → chosen.score = 0) ∧
      (∀ s ∈ l, ¬ prefLtSpec s chosen) ∧
      (∀ (j : ℕ) (hj : j < l.length), j < i → prefLtSpec chosen (l.get ⟨j, hj⟩)) := by
  rcases l with _ | ⟨r, rest⟩
  · exact absurd rfl hne
  · obtain ⟨i, hi, heq, hmin, hfirst⟩ := selectFrom_spec r rest
    have hchosen_mem : selectFrom r rest ∈ r :: rest := heq ▸ List.get_mem _ _ _
    have hdc : ∀ d : ℝ, (selectFrom r rest).duration_s = some d → d < 9e15 :=
      hdur _ hchosen_mem
    refine ⟨i, hi, selectFrom r rest, rfl, heq, ?_, ?_, ?_⟩
    · rintro hnn ⟨r0, hr0, hr0z⟩
      have h1 := hmin r0 hr0
      have h2 : ¬ (selectFrom r rest).score > r0.score := fun hgt => h1 (Or.inl (by linarith))
      have h3 := hnn _ hchosen_mem
      rw [hr0z] at h2
      linarith [not_lt.mp h2]
    · intro s hs hpre
      exact hmin s hs ((keyLt_iff_prefLtSpec s _ (hdur s hs) hdc).mpr hpre)
    · intro j hj hjlt
      exact (keyLt_iff_prefLtSpec _ _ hdc (hdur _ (List.get_mem _ _ _))).mp (hfirst j hj hjlt)

/-- C2 (amended) witness: a concrete three-route selection (scores 10, 0,
0; durations 600 s, 700 s, 500 s) satisfying the hypotheses. -/
theorem safeRoute_selection_spec_witness :
    (([⟨0, 10, some 600⟩, ⟨1, 0, some 700⟩, ⟨2, 0, some 500⟩] : List EvaluatedRoute) ≠ [] ∧
      ∀ r ∈ ([⟨0, 10, some 600⟩, ⟨1, 0, some 700⟩, ⟨2, 0, some 500⟩] : List EvaluatedRoute),
        ∀ d : ℝ, r.duration_s = some d → d < 9e15) ∧
    (∃ (i : ℕ) (hi : i < ([⟨0, 10, some 600⟩, ⟨1, 0, some 700⟩,
        ⟨2, 0, some 500⟩] : List EvaluatedRoute).length) (chosen : EvaluatedRoute),
      safeRoute [⟨0, 10, some 600⟩, ⟨1, 0, some 700⟩, ⟨2, 0, some 500⟩] =
        Except.ok chosen ∧
      chosen = ([⟨0, 10, some 600⟩, ⟨1, 0, some 700⟩,
        ⟨2, 0, some 500⟩] : List EvaluatedRoute).get ⟨i, hi⟩ ∧
      ((∀ r ∈ ([⟨0, 10, some 600⟩, ⟨1, 0, some 700⟩,
          ⟨2, 0, some 500⟩] : List EvaluatedRoute), 0 ≤ r.score) →
        (∃ r ∈ ([⟨0, 10, some 600⟩, ⟨1, 0, some 700⟩,
          ⟨2, 0, some 500⟩] : List EvaluatedRoute), r.score = 0) → chosen.score = 0) ∧
      (∀ s ∈ ([⟨0, 10, some 600⟩, ⟨1, 0, some 700⟩,
          ⟨2, 0, some 500⟩] : List EvaluatedRoute), ¬ prefLtSpec s chosen) ∧
      (∀ (j : ℕ) (hj : j < ([⟨0, 10, some 600⟩, ⟨1, 0, some 700⟩,
          ⟨2, 0, some 500⟩] : List EvaluatedRoute).length), j < i →
        prefLtSpec chosen (([⟨0, 10, some 600⟩, ⟨1, 0, some 700⟩,
          ⟨2, 0, some 500⟩] : List EvaluatedRoute).get ⟨j, hj⟩))) := by
  constructor
  · constructor
    · simp
    · intro r hr d hd
      rcases List.mem_cons.mp hr with rfl | hr
      · simp at hd
        subst hd
        norm_num
      · rcases List.mem_cons.mp hr with rfl | hr
        · simp at hd
          subst hd
          norm_num
        · rcases List.mem_cons.mp hr with rfl | hr
          · simp at hd
            subst hd
            norm_num
          · simp at hr
  · refine safeRoute_selection_spec _ (by simp) ?_
    intro r hr d hd
    rcases List.mem_cons.mp hr with rfl | hr
    · simp at hd
      subst hd
      norm_num
    · rcases List.mem_cons.mp hr with rfl | hr
      · simp at hd
        subst hd
        norm_num
      · rcases List.mem_cons.mp hr with rfl | hr
        · simp at hd
          subst hd
          norm_num
        · simp at hr

/-!
Polyline decoding (`decodePolyline`, part_002 lines 64-78; identical copy
at src/bridge-api/routes/routing.js lines 118-130).  The input string is
modelled as its list of UTF-16 code units (`charCodeAt` values).
-/

/-- JS `ToInt32`: wrap an exact integer into `[-2^31, 2^31)`. -/
def toInt32 (n : ℤ) : ℤ := (n + 2 ^ 31) % 2 ^ 32 - 2 ^ 31

/-- One inner chunk loop
`do { b = str.charCodeAt(index++) - 63; result |= (b & 0x1f) << shift;
shift += 5; } while (b >= 0x20)`.
Reading past the end (`charCodeAt` of an out-of-range index) yields NaN:
`NaN & 0x1f` is `0`, so `result` is unchanged, and `NaN >= 0x20` is false,
so the loop exits — but the cursor still advances.  For an in-range read,
JS `b & 0x1f` equals `b mod 32` (two's-complement `&` against `31`), the
shift count of `<<` is taken mod 32, and `|`/`<<` wrap their results with
`ToInt32`. -/
def readChunk (s : List ℕ) (index : ℕ) (shift : ℕ) (result : ℤ) : ℕ × ℤ :=
  if h : index < s.length then
    let b : ℤ := (s.get ⟨index, h⟩ : ℤ) - 63
    let result' := toInt32 (Int.lor result (toInt32 ((b.emod 32) * 2 ^ (shift % 32))))
    if 0x20 ≤ b then readChunk s (index + 1) (shift + 5) result'
    else (index + 1, result')
  else (index + 1, result)
termination_by s.length - index

lemma readChunk_fst_gt_aux :
    ∀ (fuel : ℕ) (s : List ℕ) (index shift : ℕ) (result : ℤ),
      s.length - index ≤ fuel → index < (readChunk s index shift result).1 := by
  intro fuel
  induction fuel with
  | zero =>
    intro s index shift result hf
    rw [readChunk]
    have h : ¬ index < s.length := by omega
    rw [dif_neg h]
    omega
  | succ f ih =>
    intro s index shift result hf
    rw [readChunk]
    by_cases h : index < s.length
    · rw [dif_pos h]
      by_cases hb : (0x20 : ℤ) ≤ (s.get ⟨index, h⟩ : ℤ) - 63
      · rw [if_pos hb]
        have := ih s (index + 1) (shift + 5)
          (toInt32 (Int.lor result
            (toInt32 ((((s.get ⟨index, h⟩ : ℤ) - 63).emod 32) * 2 ^ (shift % 32)))))
          (by omega)
        omega
      · rw [if_neg hb]
        omega
    · rw [dif_neg h]
      omega

lemma readChunk_fst_gt (s : List ℕ) (index shift : ℕ) (result : ℤ) :
    index < (readChunk s index shift result).1 :=
  readChunk_fst_gt_aux s.length s index shift result (by omega)

/-- Embedding of `(result & 1) ? ~(result >> 1) : (result >> 1)`: `result >> 1` is the
sign-propagating shift, i.e. floor division by 2, and `~v = -v - 1`;
`result & 1` is the low two's-complement bit `result mod 2`. -/
def unzig (result : ℤ) : ℤ :=
  if result.emod 2 = 1 then -(result.fdiv 2) - 1 else result.fdiv 2

/-- The outer `while (index < str.length)` loop of `decodePolyline`: read a
latitude chunk and a longitude chunk (each resetting `shift = 0`,
`result = 0`), accumulate the deltas, and push `{lat: lat/1e5, lng: lng/1e5}`. -/
noncomputable def decodeLoop (s : List ℕ) (index : ℕ) (lat lng : ℤ) : List GeoPoint :=
  if index < s.length then
    let c1 := readChunk s index 0 0
    let lat' := lat + unzig c1.2
    let c2 := readChunk s c1.1 0 0
    let lng' := lng + unzig c2.2
    ⟨(lat' : ℝ) / 100000, (lng' : ℝ) / 100000⟩ :: decodeLoop s c2.1 lat' lng'
  else []
termination_by s.length - index
decreasing_by
  have h1 := readChunk_fst_gt s index 0 0
  have h2 := readChunk_fst_gt s (readChunk s index 0 0).1 0 0
  omega

/-- Embedding of `decodePolyline(str)`: start at cursor 0 with
`lat = lng = 0`. -/
noncomputable def decodePolyline (s : List ℕ) : List GeoPoint := decodeLoop s 0 0 0

lemma decodeLoop_length_aux :
    ∀ (fuel : ℕ) (s : List ℕ) (index : ℕ) (lat lng : ℤ),
      s.length - index ≤ fuel →
      (decodeLoop s index lat lng).length ≤ s.length - index := by
  intro fuel
  induction fuel with
  | zero =>
    intro s index lat lng hf
    rw [decodeLoop]
    have h : ¬ index < s.length := by omega
    rw [if_neg h]
    simp
  | succ f ih =>
    intro s index lat lng hf
    rw [decodeLoop]
    by_cases h : index < s.length
    · rw [if_pos h]
      have h1 := readChunk_fst_gt s index 0 0
      have h2 := readChunk_fst_gt s (readChunk s index 0 0).1 0 0
      have hrec := ih s (readChunk s (readChunk s index 0 0).1 0 0).1
        (lat + unzig (readChunk s index 0 0).2)
        (lng + unzig (readChunk s (readChunk s index 0 0).1 0 0).2) (by omega)
      simp only [List.length_cons]
      omega
    · rw [if_neg h]
      simp

/-- C10: `decodePolyline` terminates on every input, malformed or truncated
encodings included.  The embedding is defined by well-founded recursion on
the cursor, which strictly advances on every chunk read (`readChunk_fst_gt`
— an out-of-range read past the end terminates the chunk loop but still
advances the cursor), so the decoder always returns a finite list — of
length at most the input length — and, being a total function, never loops
forever or throws. -/
theorem decodePolyline_terminates (s : List ℕ) :
    (decodePolyline s).length ≤ s.length := by
  have := decodeLoop_length_aux s.length s 0 0 0 (by omega)
  simpa [decodePolyline] using this

/-!
IEEE binary64 model of the zone containment test.

ECMA-262 specifies JavaScript number arithmetic as IEEE 754 binary64:
every `+`, `-`, `*`, `/` computes the exact rational result and rounds it
to 53 significant bits, round-to-nearest with ties to even.  A finite
double is represented here as an integer pair `⟨m, e⟩` denoting `m * 2^e`
(the representation is not required to be normalized; all comparisons are
by value).  Overflow to infinity and gradual underflow cannot occur in the
ranges exercised below and are not modelled.  This layer exists because
`pointInPolygon` over exact reals provably cannot report a point inside a
2-vertex polygon, while the program's rounded arithmetic can — the two
traversals of the single edge may round to different crossing abscissae.
-/

/-- Number of binary digits of `n` (`⌊log2 n⌋ + 1` for `n > 0`), written
with a fuel argument (structural recursion) so that kernel reduction can
evaluate it on literals. -/
def bitsAux : ℕ → ℕ → ℕ
  | 0, _ => 0
  | f + 1, n => if n = 0 then 0 else bitsAux f (n / 2) + 1

/-- Number of binary digits of `n` (fuel `n` always suffices). -/
def natBits (n : ℕ) : ℕ := bitsAux n n

/-- A finite binary64 value `m * 2^e`. -/
structure Dbl where
  m : ℤ
  e : ℤ
deriving DecidableEq

/-- Round the non-negative rational `a / d` (`d > 0`) to 53 significant
bits, round-to-nearest ties-to-even, returning `(m, e)` with the rounded
value equal to `m * 2^e` and `m` in `[2^52, 2^53]`: first bracket `a / d`
in `[2^e, 2^(e+1))`, then divide `a * 2^(52-e)` by `d` and round the
quotient by comparing twice the remainder with the divisor. -/
def roundPosRat (a d : ℕ) : ℤ × ℤ :=
  if a = 0 then (0, 0)
  else
    let e0 : ℤ := (natBits a : ℤ) - (natBits d : ℤ)
    let e : ℤ := if d * 2 ^ e0.toNat ≤ a * 2 ^ (-e0).toNat then e0 else e0 - 1
    let shift : ℤ := 52 - e
    let num := a * 2 ^ shift.toNat
    let den := d * 2 ^ (-shift).toNat
    let q := num / den
    let r := num % den
    let m : ℕ :=
      if 2 * r < den then q
      else if den < 2 * r then q + 1
      else if q % 2 = 0 then q else q + 1
    ((m : ℤ), e - 52)

/-- Round the exact signed dyadic value `n * 2^f` to binary64 (rounding is
symmetric under negation and commutes with scaling by powers of two). -/
def roundDyadic (n : ℤ) (f : ℤ) : Dbl :=
  let p := roundPosRat n.natAbs 1
  ⟨if n < 0 then -p.1 else p.1, p.2 + f⟩

/-- Binary64 subtraction: the exact difference on a common exponent,
rounded. -/
def Dbl.sub (x y : Dbl) : Dbl :=
  let f := if x.e ≤ y.e then x.e else y.e
  roundDyadic (x.m * 2 ^ (x.e - f).toNat - y.m * 2 ^ (y.e - f).toNat) f

/-- Binary64 addition: the exact sum on a common exponent, rounded. -/
def Dbl.add (x y : Dbl) : Dbl :=
  let f := if x.e ≤ y.e then x.e else y.e
  roundDyadic (x.m * 2 ^ (x.e - f).toNat + y.m * 2 ^ (y.e - f).toNat) f

/-- Binary64 multiplication: the exact product, rounded. -/
def Dbl.mul (x y : Dbl) : Dbl := roundDyadic (x.m * y.m) (x.e + y.e)

/-- Binary64 division: round `|x.m| / |y.m|`, scale by the exact power
`2^(x.e - y.e)`, restore the sign.  (The embedded loop below divides only
when the straddle test holds, so the divisor is never zero there.) -/
def Dbl.div (x y : Dbl) : Dbl :=
  let p := roundPosRat x.m.natAbs y.m.natAbs
  ⟨if (x.m < 0) ≠ (y.m < 0) then -p.1 else p.1, p.2 + x.e - y.e⟩

/-- Value comparison `x < y` of two binary64 values, by bringing both to
the smaller exponent. -/
def dblLtB (x y : Dbl) : Bool :=
  if x.e ≤ y.e then x.m < y.m * 2 ^ (y.e - x.e).toNat
  else x.m * 2 ^ (x.e - y.e).toNat < y.m

/-- A route point with binary64 coordinates (the values a JSON literal
parses to). -/
structure DblPoint where
  lat : Dbl
  lng : Dbl

instance : Inhabited DblPoint := ⟨⟨⟨0, 0⟩, ⟨0, 0⟩⟩⟩

/-- The same `pointInPolygon` loop (part_002 lines 52-61) computed in
binary64: `yi > y` is `y < yi`, the straddle test compares the two boolean
flags with JS `!==`, and the crossing abscissa
`(xj - xi) * (y - yi) / (yj - yi) + xi` is evaluated with rounded
`-`, `*`, `/`, `+` in the source's order. -/
def pointInPolygonD (point : DblPoint) (polygon : List DblPoint) : Bool :=
  (List.range polygon.length).foldl
    (fun inside i =>
      let j := if i = 0 then polygon.length - 1 else i - 1
      let vi := polygon.getD i default
      let vj := polygon.getD j default
      let straddle := (dblLtB point.lng vi.lng) != (dblLtB point.lng vj.lng)
      let crossing := dblLtB point.lat
        (Dbl.add (Dbl.div (Dbl.mul (Dbl.sub vj.lat vi.lat) (Dbl.sub point.lng vi.lng))
          (Dbl.sub vj.lng vi.lng)) vi.lat)
      if straddle && crossing then !inside else inside)
    false

/-- A zone record with binary64 polygon vertices. -/
structure ZoneD where
  id : String
  name : String
  polygon : Option (List DblPoint)

/-- Binary64 counterpart of `polyOf`. -/
def polyOfD (z : ZoneD) : List DblPoint := z.polygon.getD []

/-- Binary64 counterpart of `zoneFlagged`: the `checkZones` guard and the
break-on-first-match scan over the route points. -/
def zoneFlaggedD (points : List DblPoint) (z : ZoneD) : Bool :=
  !(polyOfD z).isEmpty && points.any fun p => pointInPolygonD p (polyOfD z)

/-- Binary64 counterpart of `zoneRecord`. -/
def zoneRecordD (key : String) (z : ZoneD) : FlaggedZone :=
  ⟨if z.id ≠ "" then z.id else z.name,
   if z.name ≠ "" then z.name else key⟩

/-- Binary64 counterpart of `flaggedZonesOf`: one `checkZones` bucket. -/
def flaggedZonesOfD (zones : List ZoneD) (points : List DblPoint)
    (key : String) : List FlaggedZone :=
  (zones.filter (zoneFlaggedD points)).map (zoneRecordD key)

lemma pointInPolygonD_singleton (pt q : DblPoint) : pointInPolygonD pt [q] = false := by
  have h1 : List.range 1 = [0] := rfl
  simp [pointInPolygonD, h1]

lemma not_zoneFlaggedD_of_lt_two (pts : List DblPoint) (z : ZoneD)
    (h : (polyOfD z).length < 2) : zoneFlaggedD pts z = false := by
  rcases hpoly : polyOfD z with _ | ⟨a, _ | ⟨b, t⟩⟩
  · simp [zoneFlaggedD, hpoly]
  · simp [zoneFlaggedD, hpoly, pointInPolygonD_singleton]
  · rw [hpoly] at h
    simp at h
    omega

lemma not_zoneFlagged_of_lt_two (pts : List GeoPoint) (z : Zone)
    (h : (polyOf z).length < 2) : ¬ zoneFlagged pts z := by
  rintro ⟨hne, p, hp, hin⟩
  rcases hpoly : polyOf z with _ | ⟨a, _ | ⟨b, t⟩⟩
  · exact hne hpoly
  · rw [hpoly, pointInPolygon_singleton] at hin
    exact Bool.false_ne_true hin
  · rw [hpoly] at h
    simp at h
    omega

/-- C8 counterexample: in the program's IEEE binary64 arithmetic the
2-vertex zone with polygon `[(0,0), (1,3)]` IS flagged for the route point
`(0.3333333333333333, 1)`.  The point's latitude is the double
`6004799503160661 * 2^-54` (the binary64 value of that JSON literal).
Both traversals of the single edge straddle; the traversal `(i=0, j=1)`
computes the crossing abscissa `1 * 1 / 3`, which rounds to the same
double `6004799503160661 * 2^-54` (so `x < t` fails), but the traversal
`(i=1, j=0)` computes `(-1) * (-2) / (-3) + 1`, which rounds to the
adjacent double above, `6004799503160662 * 2^-54` (so `x < t` succeeds).
The parity flag therefore toggles exactly once, `pointInPolygon` returns
true, and `checkZones` pushes the zone into its bucket: a zone with fewer
than 3 polygon vertices is not always skipped by scoring. -/
theorem twoVertexZone_flagged_in_binary64 :
    (polyOfD ⟨"nt1", "noTruck", some [⟨⟨0, 0⟩, ⟨0, 0⟩⟩, ⟨⟨1, 0⟩, ⟨3, 0⟩⟩]⟩).length < 3 ∧
    pointInPolygonD ⟨⟨6004799503160661, -54⟩, ⟨1, 0⟩⟩
      [⟨⟨0, 0⟩, ⟨0, 0⟩⟩, ⟨⟨1, 0⟩, ⟨3, 0⟩⟩] = true ∧
    flaggedZonesOfD [⟨"nt1", "noTruck", some [⟨⟨0, 0⟩, ⟨0, 0⟩⟩, ⟨⟨1, 0⟩, ⟨3, 0⟩⟩]⟩]
      [⟨⟨6004799503160661, -54⟩, ⟨1, 0⟩⟩] "noTruckZones" = [⟨"nt1", "noTruck"⟩] :=
  ⟨by decide, by decide, by decide⟩

/-- C8 (amended): a zone whose polygon has fewer than 2 vertices is
skipped by scoring, in whichever bucket it is listed: an empty polygon is
skipped by the `!poly.length` guard, and a 1-vertex polygon can never
contain a point, because its only edge pairs the vertex with itself, so
the straddle test compares a value with itself and fails under any
arithmetic — the statement therefore holds both in the exact-real scorer
model and in the binary64 bucket model.  A 2-vertex zone has no such
guarantee (see the counterexample). -/
theorem scoreRoute_skips_short_polygon_zone (bridges : List Bridge)
    (zs₁ zs₂ other : List Zone) (z : Zone) (pts : List GeoPoint) (o : ScoreOpts)
    (h : (polyOf z).length < 2)
    (zsD₁ zsD₂ : List ZoneD) (zD : ZoneD) (ptsD : List DblPoint) (key : String)
    (hD : (polyOfD zD).length < 2) :
    (scoreRoute bridges (zs₁ ++ z :: zs₂) other pts o =
      scoreRoute bridges (zs₁ ++ zs₂) other pts o ∧
     scoreRoute bridges other (zs₁ ++ z :: zs₂) pts o =
      scoreRoute bridges other (zs₁ ++ zs₂) pts o) ∧
    flaggedZonesOfD (zsD₁ ++ zD :: zsD₂) ptsD key =
      flaggedZonesOfD (zsD₁ ++ zsD₂) ptsD key := by
  have hnot := not_zoneFlagged_of_lt_two pts z h
  have hnotD := not_zoneFlaggedD_of_lt_two ptsD zD hD
  refine ⟨⟨?_, ?_⟩, ?_⟩
  · simp [scoreRoute, flaggedZonesOf, List.filter_append, List.filter_cons, hnot]
  · simp [scoreRoute, flaggedZonesOf, List.filter_append, List.filter_cons, hnot]
  · simp [flaggedZonesOfD, List.filter_append, List.filter_cons, hnotD]

/-- C8 (amended) witness: concrete 1-vertex zones are skipped in both
models. -/
theorem scoreRoute_skips_short_polygon_zone_witness :
    ((polyOf ⟨"z1", "zone", some [⟨0, 0⟩]⟩).length < 2 ∧
      (polyOfD ⟨"d1", "dzone", some [⟨⟨0, 0⟩, ⟨0, 0⟩⟩]⟩).length < 2) ∧
    ((scoreRoute [] ([] ++ ⟨"z1", "zone", some [⟨0, 0⟩]⟩ :: []) [] [⟨1, 1⟩] ⟨13.5, 120⟩ =
        scoreRoute [] ([] ++ []) [] [⟨1, 1⟩] ⟨13.5, 120⟩ ∧
      scoreRoute [] [] ([] ++ ⟨"z1", "zone", some [⟨0, 0⟩]⟩ :: []) [⟨1, 1⟩] ⟨13.5, 120⟩ =
        scoreRoute [] [] ([] ++ []) [⟨1, 1⟩] ⟨13.5, 120⟩) ∧
    flaggedZonesOfD ([] ++ ⟨"d1", "dzone", some [⟨⟨0, 0⟩, ⟨0, 0⟩⟩]⟩ :: [])
        [⟨⟨1, 0⟩, ⟨1, 0⟩⟩] "noTruckZones" =
      flaggedZonesOfD ([] ++ []) [⟨⟨1, 0⟩, ⟨1, 0⟩⟩] "noTruckZones") :=
  ⟨⟨by norm_num [polyOf], by norm_num [polyOfD]⟩,
   scoreRoute_skips_short_polygon_zone [] [] [] [] _ [⟨1, 1⟩] ⟨13.5, 120⟩
     (by norm_num [polyOf]) [] [] _ [⟨⟨1, 0⟩, ⟨1, 0⟩⟩] "noTruckZones"
     (by norm_num [polyOfD])⟩
